import Mathlib

/-!
Verification of the x-token-deployer deployment pipeline.

This file gives a shallow embedding, in Lean 4, of the parts of the
repository that the specification's claims are about:

* the data model (`src/backend/src/types`, `src/backend/src/db/schema.sql`),
* the `Database` class over its SQL backend (`src/backend/src/db/index.ts`),
* the `WalletResolver` service,
* the `CommandParser` service (`src/backend/src/services/CommandParser.ts`),
* the `WalletService` encryption wrappers
  (`src/backend/src/services/WalletService.ts`),
* the `BlockchainDeployer.deploy` orchestration,
* the `processDeploymentJob` pipeline driver and the BullMQ worker options.

Database records are modelled as association lists keyed by the SQL key
column; the SQL `UNIQUE (deploy_tweet_id)` constraint appears as the
duplicate-key check in `createDeployment`.  External collaborators that the
spec excludes (the Four.Meme HTTP API, the chain RPC, the Twitter client,
the AES block cipher inside node's `crypto`) are modelled as explicit
oracle parameters at their interface boundary; everything the repository
itself computes is transcribed from the source.  Clock reads (`NOW()`,
`Date.now()`) are threaded as an explicit `now : Nat` parameter, and
exceptions become `Except` values.

The pipeline driver additionally returns a trace of the externally visible
operations it performed (row creation, status writes, rate-limit attempt
records, deployer invocations, replies) so that ordering and
at-most-once properties can be stated about a run.
-/

namespace TokenDeployer

/-! ## Data model (src/backend/src/types, src/unnamed/part_002) -/

/-- Deployment status lifecycle values, from the `DeploymentStatus` union
type and the `valid_status` CHECK constraint in `schema.sql`. -/
inductive DeploymentStatus
  | pending
  | processing
  | deployed
  | failed
  | wallet_missing
deriving DecidableEq, Repr, Fintype

/-- A row of the `users` table (`User` interface). -/
structure User where
  twitter_id : String
  wallet_address : String
  private_key_encrypted : Option String
  verified_at : Nat
deriving DecidableEq, Repr

/-- A row of the `deployments` table (`Deployment` interface plus the
`error_message` and `deployed_at` columns of `schema.sql`). -/
structure Deployment where
  deploy_tweet_id : String
  parent_tweet_id : String
  deployer_twitter_id : String
  fee_recipient_twitter_id : String
  fee_recipient_wallet : String
  token_name : String
  token_symbol : String
  token_address : Option String
  pool_id : Option String
  tx_hash : Option String
  status : DeploymentStatus
  error_message : Option String
  deployed_at : Option Nat
deriving DecidableEq, Repr

/-- A row of the `rate_limits` table. -/
structure RateLimitRow where
  last_deploy_at : Nat
  deploy_count_24h : Nat
deriving DecidableEq, Repr

/-- Database state: the three tables touched by the pipeline, as
association lists keyed by their primary/unique key column. -/
structure DBState where
  users : List (String × User)
  deployments : List (String × Deployment)
  rate_limits : List (String × RateLimitRow)
deriving DecidableEq, Repr

/-- Look a key up in an association list (first match). -/
def alistFind {β : Type} (k : String) : List (String × β) → Option β
  | [] => none
  | (k', v) :: rest => if k' = k then some v else alistFind k rest

/-- Write a key's value in an association list, keeping at most one entry
per key that is already unique (insert at the end when absent, replace in
place when present). -/
def alistSet {β : Type} (k : String) (v : β) : List (String × β) → List (String × β)
  | [] => [(k, v)]
  | (k', v') :: rest => if k' = k then (k, v) :: rest else (k', v') :: alistSet k v rest

/-! ## Database operations (src/backend/src/db/index.ts, `Database` class)

The SQL-backed (non-`MOCK_DB`) paths are the authoritative behaviour and
are what is modelled; the clock is the explicit `now` argument. -/

/-- `Database.getWalletByTwitterId`: `SELECT wallet_address FROM users
WHERE twitter_id = $1`, then `result.rows[0]?.wallet_address || null`
(JavaScript `||` maps the empty string to `null` too). -/
def getWalletByTwitterId (db : DBState) (twitterId : String) : Option String :=
  match alistFind twitterId db.users with
  | some u => if u.wallet_address = "" then none else some u.wallet_address
  | none => none

/-- `Database.getUserByTwitterId`. -/
def getUserByTwitterId (db : DBState) (twitterId : String) : Option User :=
  alistFind twitterId db.users

/-- The storage-layer errors that the modelled operations can signal:
`duplicateKey` is the Postgres unique-violation raised by the
`unique_deploy_tweet` constraint, `checkViolation` the check-constraint
violation raised by `valid_wallet` on the `users` table. -/
inductive DBError
  | duplicateKey
  | checkViolation
deriving DecidableEq, Repr

/-- Human-readable message of a storage error (`error.message`). -/
def DBError.message : DBError → String
  | .duplicateKey => "duplicate key value violates unique constraint \x22unique_deploy_tweet\x22"
  | .checkViolation =>
    "new row for relation \x22users\x22 violates check constraint \x22valid_wallet\x22"

/-- `String.prototype.toLowerCase` (ASCII range), as a character map over
the string's characters. -/
def lowerString (s : String) : String :=
  ⟨s.data.map Char.toLower⟩

/-- One character of the `[a-fA-F0-9]` class of the `valid_wallet` CHECK
(code points: digits 0x30–0x39, `a`–`f` 0x61–0x66, `A`–`F` 0x41–0x46). -/
def isHexDigitChar (c : Char) : Bool :=
  let n := c.toNat
  (48 ≤ n && n ≤ 57) || (97 ≤ n && n ≤ 102) || (65 ≤ n && n ≤ 70)

/-- The `valid_wallet` CHECK of `schema.sql` on `users.wallet_address`:
`wallet_address ~ '^0x[a-fA-F0-9]{40}$'`. -/
def validWallet (s : String) : Bool :=
  match s.data with
  | c0 :: c1 :: rest => c0 = '0' && c1 = 'x' && rest.length = 40 && rest.all isHexDigitChar
  | _ => false

/-- `Database.upsertUser`: `INSERT ... ON CONFLICT (twitter_id) DO UPDATE
SET wallet_address = $2, private_key_encrypted = $3, verified_at = NOW()`.
The address is lower-cased before storage, and the stored value must pass
the table's `valid_wallet` CHECK (Postgres enforces it on both the insert
and the `DO UPDATE` arm): a violation raises and leaves the table
unchanged.  Note that on success the key column is written from `$3`
unconditionally, also when the caller left the `encryptedKey` parameter
at its default `null`. -/
def upsertUser (db : DBState) (twitterId walletAddress : String)
    (encryptedKey : Option String) (now : Nat) : Except DBError User × DBState :=
  let stored := lowerString walletAddress
  if validWallet stored then
    let user : User :=
      { twitter_id := twitterId
        wallet_address := stored
        private_key_encrypted := encryptedKey
        verified_at := now }
    (Except.ok user, { db with users := alistSet twitterId user db.users })
  else
    (Except.error DBError.checkViolation, db)

/-- Parameters of `Database.createDeployment`. -/
structure CreateParams where
  deployTweetId : String
  parentTweetId : String
  deployerTwitterId : String
  feeRecipientTwitterId : String
  feeRecipientWallet : String
  tokenName : String
  tokenSymbol : String
deriving DecidableEq, Repr

/-- `Database.createDeployment`: `INSERT INTO deployments (...) VALUES
(..., 'pending') RETURNING *`.  Against the `unique_deploy_tweet`
constraint the insert fails with a duplicate-key error when a row for
`deploy_tweet_id` already exists, leaving the table unchanged; otherwise a
fresh row with status `pending` and null on-chain columns is stored. -/
def createDeployment (db : DBState) (params : CreateParams) :
    Except DBError Deployment × DBState :=
  if (alistFind params.deployTweetId db.deployments).isSome then
    (Except.error DBError.duplicateKey, db)
  else
    let row : Deployment :=
      { deploy_tweet_id := params.deployTweetId
        parent_tweet_id := params.parentTweetId
        deployer_twitter_id := params.deployerTwitterId
        fee_recipient_twitter_id := params.feeRecipientTwitterId
        fee_recipient_wallet := params.feeRecipientWallet
        token_name := params.tokenName
        token_symbol := params.tokenSymbol
        token_address := none
        pool_id := none
        tx_hash := none
        status := DeploymentStatus.pending
        error_message := none
        deployed_at := none }
    (Except.ok row, { db with deployments := alistSet params.deployTweetId row db.deployments })

/-- The optional-field record of `Database.updateDeploymentStatus`. -/
structure UpdateData where
  tokenAddress : Option String
  poolId : Option String
  txHash : Option String
  errorMessage : Option String
deriving DecidableEq, Repr

/-- The all-absent optional-field record (the `data?` argument omitted). -/
def noUpdateData : UpdateData :=
  { tokenAddress := none, poolId := none, txHash := none, errorMessage := none }

/-- JavaScript truthiness of an optional string field: `if (data?.field)`
is false both for an absent field and for the empty string. -/
def optTruthy : Option String → Bool
  | some s => s ≠ ""
  | none => false

/-- The row produced by one `UPDATE deployments SET ...` statement of
`updateDeploymentStatus`: the status column is always written, each
optional column only when its field is truthy, and `deployed_at = NOW()`
exactly when the new status is `deployed`. -/
def applyUpdate (r : Deployment) (status : DeploymentStatus) (data : UpdateData)
    (now : Nat) : Deployment :=
  { r with
    status := status
    token_address := if optTruthy data.tokenAddress then data.tokenAddress else r.token_address
    pool_id := if optTruthy data.poolId then data.poolId else r.pool_id
    tx_hash := if optTruthy data.txHash then data.txHash else r.tx_hash
    error_message := if optTruthy data.errorMessage then data.errorMessage else r.error_message
    deployed_at := if status = DeploymentStatus.deployed then some now else r.deployed_at }

/-- `Database.updateDeploymentStatus`: an `UPDATE ... WHERE
deploy_tweet_id = $1` that is a no-op when no row matches. -/
def updateDeploymentStatus (db : DBState) (deployTweetId : String)
    (status : DeploymentStatus) (data : UpdateData) (now : Nat) : DBState :=
  match alistFind deployTweetId db.deployments with
  | none => db
  | some r =>
    { db with deployments := alistSet deployTweetId (applyUpdate r status data now) db.deployments }

/-- `Database.getDeploymentByTweetId`. -/
def getDeploymentByTweetId (db : DBState) (deployTweetId : String) : Option Deployment :=
  alistFind deployTweetId db.deployments

/-- `Database.deploymentExists`: `SELECT EXISTS(SELECT 1 FROM deployments
WHERE deploy_tweet_id = $1)`. -/
def deploymentExists (db : DBState) (deployTweetId : String) : Bool :=
  (alistFind deployTweetId db.deployments).isSome

/-- `Database.checkRateLimit`: true when no attempt is recorded for the
identity or when `Date.now() - last_deploy_at >= cooldownMs` (computed
over the integers, as JavaScript arithmetic is). -/
def checkRateLimit (db : DBState) (twitterId : String) (cooldownMs : Nat) (now : Nat) : Bool :=
  match alistFind twitterId db.rate_limits with
  | none => true
  | some r => (cooldownMs : Int) ≤ (now : Int) - (r.last_deploy_at : Int)

/-- The effect on the `rate_limits` table of one
`recordDeployAttempt` upsert. -/
def bumpAttempt (rl : List (String × RateLimitRow)) (twitterId : String) (now : Nat) :
    List (String × RateLimitRow) :=
  match alistFind twitterId rl with
  | none => alistSet twitterId { last_deploy_at := now, deploy_count_24h := 1 } rl
  | some r =>
    alistSet twitterId { last_deploy_at := now, deploy_count_24h := r.deploy_count_24h + 1 } rl

/-- `Database.recordDeployAttempt`: `INSERT ... VALUES ($1, NOW(), 1) ON
CONFLICT (twitter_id) DO UPDATE SET last_deploy_at = NOW(),
deploy_count_24h = rate_limits.deploy_count_24h + 1`. -/
def recordDeployAttempt (db : DBState) (twitterId : String) (now : Nat) : DBState :=
  { db with rate_limits := bumpAttempt db.rate_limits twitterId now }

/-! ## WalletResolver (src/unnamed/part_005) -/

namespace WalletResolver

/-- `WalletResolver.resolve`: pure lookup through
`db.getWalletByTwitterId`. -/
def resolve (db : DBState) (twitterId : String) : Option String :=
  getWalletByTwitterId db twitterId

/-- `WalletResolver.hasWallet`: derived from `resolve`. -/
def hasWallet (db : DBState) (twitterId : String) : Bool :=
  (resolve db twitterId).isSome

/-- `WalletResolver.link`: `db.upsertUser(twitterId, walletAddress)` —
the `encryptedKey` parameter of `upsertUser` is left at its default
`null`, which the upsert writes into the key column; a storage error
(such as the `valid_wallet` check violation) propagates to the caller. -/
def link (db : DBState) (twitterId walletAddress : String) (now : Nat) :
    Except DBError Unit × DBState :=
  let r := upsertUser db twitterId walletAddress none now
  (r.1.map fun _ => (), r.2)

end WalletResolver

/-! ## CommandParser (src/backend/src/services/CommandParser.ts)

Tweet text is modelled as `List Char`.  JavaScript's `toLowerCase` /
`toUpperCase` are modelled on the ASCII range by `Char.toLower` /
`Char.toUpper`; `trim`, `includes` and the three regular expressions of
`parse` are transcribed below.  The regexes are implemented as
left-to-right scanners; wherever two adjacent regex pieces have disjoint
character classes the greedy match is deterministic, and at the two spots
where classes overlap (`\s*` before the lazy name capture, `\s+` before
the trailing `(.+)`) the engine's backtracking is spelled out. -/

/-- The JavaScript `\s` character class (also the set removed by
`String.prototype.trim`): ASCII whitespace plus the Unicode space
separators, NEL-adjacent separators and the BOM. -/
def isJsSpace (c : Char) : Bool :=
  c == ' ' || c == '\t' || c == '\n' || c == '\x0b' || c == '\x0c' || c == '\r' ||
  c == '\u00A0' || c == '\u1680' || (decide ('\u2000' ≤ c) && decide (c ≤ '\u200A')) ||
  c == '\u2028' || c == '\u2029' || c == '\u202F' || c == '\u205F' || c == '\u3000' ||
  c == '\uFEFF'

/-- `String.prototype.trim`: strip leading and trailing whitespace. -/
def trimText (l : List Char) : List Char :=
  ((l.dropWhile isJsSpace).reverse.dropWhile isJsSpace).reverse

/-- `String.prototype.toLowerCase` (ASCII range). -/
def lowerStr (l : List Char) : List Char := l.map Char.toLower

/-- `String.prototype.toUpperCase` (ASCII range). -/
def upperStr (l : List Char) : List Char := l.map Char.toUpper

/-- `String.prototype.includes`: substring containment. -/
def containsSub (pat l : List Char) : Bool :=
  l.tails.any fun t => pat.isPrefixOf t

/-- Match a literal case-insensitively (the `/i` flag) at the head of the
input, returning the rest of the input on success. -/
def stripCI : List Char → List Char → Option (List Char)
  | [], l => some l
  | _, [] => none
  | p :: ps, c :: cs => if c.toLower = p.toLower then stripCI ps cs else none

/-- ASCII letters and digits — the `[A-Z0-9]` ticker class under `/i`,
which is also zod's `Ticker must be alphanumeric` regex. -/
def isAsciiAlphaNum (c : Char) : Bool :=
  (decide ('A' ≤ c) && decide (c ≤ 'Z')) || (decide ('a' ≤ c) && decide (c ≤ 'z')) ||
  (decide ('0' ≤ c) && decide (c ≤ '9'))

/-- The `\w` class: `[A-Za-z0-9_]`. -/
def isWordChar (c : Char) : Bool :=
  isAsciiAlphaNum c || c == '_'

/-- The `[A-Za-z0-9\s\-_.]` class of the name capture and of zod's name
validation regex. -/
def inNameClass (c : Char) : Bool :=
  isAsciiAlphaNum c || isJsSpace c || c == '-' || c == '_' || c == '.'

/-- Attempt `/ticker\s*:\s*(\S+)/i` at the current position: the literal,
greedy whitespace, a colon, greedy whitespace, then a maximal non-empty
run of non-whitespace as the capture.  Every adjacent pair of pieces has
disjoint classes, so greedy matching needs no backtracking here. -/
def matchTickerAt (l : List Char) : Option (List Char) :=
  match stripCI ['t', 'i', 'c', 'k', 'e', 'r'] l with
  | none => none
  | some r1 =>
    match r1.dropWhile isJsSpace with
    | ':' :: r2 =>
      let r3 := r2.dropWhile isJsSpace
      let cap := r3.takeWhile fun c => ¬ isJsSpace c
      if cap = [] then none else some cap
    | _ => none

/-- The lazy capture `([A-Za-z0-9\s\-_.]+?)` followed by `(?:\n|$)`: take
characters of the class one at a time, stopping at the first point where a
newline or the end of the input follows; fail on a character outside the
class before such a point. -/
def lazyNameCap : List Char → Option (List Char)
  | [] => none
  | c :: rest =>
    if ¬ inNameClass c then none
    else
      match rest with
      | [] => some [c]
      | '\n' :: _ => some [c]
      | _ =>
        match lazyNameCap rest with
        | some cap => some (c :: cap)
        | none => none

/-- The `\s*` that precedes the lazy name capture, with its backtracking:
`\s ⊆` the capture class, so the greedy run of length `w` is retried with
shorter runs (hand-back one character at a time) until the capture
succeeds. -/
def nameCapDown (r : List Char) : Nat → Option (List Char)
  | 0 => lazyNameCap r
  | w + 1 =>
    match lazyNameCap (r.drop (w + 1)) with
    | some cap => some cap
    | none => nameCapDown r w

/-- Attempt `/name\s*:\s*([A-Za-z0-9\s\-_.]+?)(?:\n|$)/i` at the current
position. -/
def matchNameAt (l : List Char) : Option (List Char) :=
  match stripCI ['n', 'a', 'm', 'e'] l with
  | none => none
  | some r1 =>
    match r1.dropWhile isJsSpace with
    | ':' :: r2 => nameCapDown r2 (r2.takeWhile isJsSpace).length
    | _ => none

/-- The trailing `\s+(.+)` of the simple format, with its backtracking:
`.` is any character except `\n`, so after the greedy whitespace run the
engine hands whitespace characters back one at a time until a non-newline
character is available for the capture, which then takes the maximal
newline-free run. -/
def wsThenRestDown (r : List Char) : Nat → Option (List Char)
  | 0 => none
  | w + 1 =>
    match r.drop (w + 1) with
    | [] => wsThenRestDown r w
    | c :: cs =>
      if c = '\n' then wsThenRestDown r w
      else some ((c :: cs).takeWhile fun x => x ≠ '\n')

/-- Attempt `/@\w+\s+deploy\s+(\S+)\s+(.+)/i` at the current position,
returning the two captures. -/
def matchSimpleAt : List Char → Option (List Char × List Char)
  | [] => none
  | c :: rest =>
    if c ≠ '@' then none
    else
      let w := rest.takeWhile isWordChar
      if w = [] then none
      else
        let s1 := (rest.drop w.length).takeWhile isJsSpace
        if s1 = [] then none
        else
          match stripCI ['d', 'e', 'p', 'l', 'o', 'y'] ((rest.drop w.length).drop s1.length) with
          | none => none
          | some r2 =>
            let s2 := r2.takeWhile isJsSpace
            if s2 = [] then none
            else
              let r3 := r2.drop s2.length
              let cap1 := r3.takeWhile fun x => ¬ isJsSpace x
              if cap1 = [] then none
              else
                let r4 := r3.drop cap1.length
                match wsThenRestDown r4 (r4.takeWhile isJsSpace).length with
                | none => none
                | some cap2 => some (cap1, cap2)

/-- Scan a position-wise matcher across the input (regex search from the
leftmost starting position). -/
def scanFor {α : Type} (m : List Char → Option α) : List Char → Option α
  | [] => m []
  | l@(_ :: rest) =>
    match m l with
    | some x => some x
    | none => scanFor m rest

/-- `text.match(/ticker\s*:\s*(\S+)/i)`, first capture. -/
def findTicker (text : List Char) : Option (List Char) :=
  scanFor matchTickerAt text

/-- `text.match(/name\s*:\s*([A-Za-z0-9\s\-_.]+?)(?:\n|$)/i)`, first
capture. -/
def findName (text : List Char) : Option (List Char) :=
  scanFor matchNameAt text

/-- `text.match(/@\w+\s+deploy\s+(\S+)\s+(.+)/i)`, both captures. -/
def findSimple (text : List Char) : Option (List Char × List Char) :=
  scanFor matchSimpleAt text

/-- zod `tickerSchema`: `min(1)`, `max(10)`, `/^[A-Z0-9]+$/i`. -/
def validTicker (t : List Char) : Bool :=
  1 ≤ t.length && t.length ≤ 10 && t.all isAsciiAlphaNum

/-- zod `nameSchema`: `min(1)`, `max(50)`, `/^[a-zA-Z0-9\s\-_.]+$/`. -/
def validName (n : List Char) : Bool :=
  1 ≤ n.length && n.length ≤ 50 && n.all inNameClass

/-- The `DeployCommand` interface. -/
structure DeployCommand where
  ticker : String
  name : String
deriving DecidableEq, Repr

/-- The `CommandParser` class: its one field is the bot username. -/
structure CommandParser where
  botUsername : List Char
deriving DecidableEq, Repr

/-- The constructor: `this.botUsername = botUsername.toLowerCase()`. -/
def CommandParser.create (botUsername : List Char) : CommandParser :=
  ⟨lowerStr botUsername⟩

/-- `CommandParser.parse`: the mention/`deploy` guard over the normalized
text, extraction of ticker and name (structured format first, simple
format as fallback), the `!ticker` / `!name` JavaScript-falsiness checks
and the two zod validations — any failure returns `null`. -/
def CommandParser.parse (p : CommandParser) (text : List Char) : Option DeployCommand :=
  let normalized := lowerStr (trimText text)
  if ¬ containsSub ('@' :: p.botUsername) normalized ∨
      ¬ containsSub ['d', 'e', 'p', 'l', 'o', 'y'] normalized then
    none
  else
    let extracted : Option (List Char × List Char) :=
      match findTicker text, findName text with
      | some t, some n => some (upperStr (trimText t), trimText n)
      | _, _ =>
        match findSimple text with
        | some (t, n) => some (upperStr (trimText t), trimText n)
        | none => none
    match extracted with
    | none => none
    | some (ticker, name) =>
      if ticker = [] then none
      else if name = [] then none
      else if ¬ validTicker ticker then none
      else if ¬ validName name then none
      else some { ticker := ticker.asString, name := name.asString }

/-! ## WalletService (src/backend/src/services/WalletService.ts)

`encrypt` / `decrypt` wrap node's `crypto` AES-256-CBC stream for the
service's fixed 32-byte key.  The cipher itself is an external
collaborator and is abstracted as a pair of byte-list functions
parameterized by the IV (the key is fixed inside the instance); the
repository's own logic — the random 16-byte IV, hex serialization of IV
and ciphertext, the `iv:ciphertext` colon framing, and `decrypt`'s
splitting and validity checks — is modelled concretely.  Plaintext is the
UTF-8 byte sequence of the string. -/

/-- A byte. -/
abbrev Byte := Fin 256

/-- One lowercase hex digit, as produced by `Buffer.toString('hex')`
(argument is a value `< 16`). -/
def hexDigitChar : Nat → Char
  | 0 => '0' | 1 => '1' | 2 => '2' | 3 => '3' | 4 => '4'
  | 5 => '5' | 6 => '6' | 7 => '7' | 8 => '8' | 9 => '9'
  | 10 => 'a' | 11 => 'b' | 12 => 'c' | 13 => 'd' | 14 => 'e'
  | _ => 'f'

/-- Two hex digits of one byte. -/
def hexByte (b : Byte) : List Char :=
  [hexDigitChar (b.val / 16), hexDigitChar (b.val % 16)]

/-- `Buffer.prototype.toString('hex')`. -/
def hexEncode (bs : List Byte) : List Char :=
  (bs.map hexByte).flatten

/-- Value of one hex digit (`Buffer.from(.., 'hex')` accepts both
cases), computed from the code point: digits are 0x30–0x39, the letter
ranges start at 0x61 (lowercase) and 0x41 (uppercase). -/
def hexDigitVal (c : Char) : Option (Fin 16) :=
  let n := c.toNat
  if h1 : 48 ≤ n ∧ n ≤ 57 then some ⟨n - 48, by omega⟩
  else if h2 : 97 ≤ n ∧ n ≤ 102 then some ⟨n - 87, by omega⟩
  else if h3 : 65 ≤ n ∧ n ≤ 70 then some ⟨n - 55, by omega⟩
  else none

/-- Assemble a byte from its two hex-digit values. -/
def finByte (h lo : Fin 16) : Byte :=
  ⟨h.val * 16 + lo.val, by have := h.isLt; have := lo.isLt; omega⟩

/-- `Buffer.from(s, 'hex')` on well-formed hex input (`none` models the
failure cases that make `decrypt` throw). -/
def hexDecode : List Char → Option (List Byte)
  | [] => some []
  | c1 :: c2 :: rest =>
    match hexDigitVal c1, hexDigitVal c2 with
    | some h, some lo =>
      match hexDecode rest with
      | some bs => some (finByte h lo :: bs)
      | none => none
    | _, _ => none
  | _ => none

/-- `String.prototype.split(':')`. -/
def splitOnColon : List Char → List (List Char)
  | [] => [[]]
  | ':' :: rest => [] :: splitOnColon rest
  | c :: rest =>
    match splitOnColon rest with
    | [] => [[c]]
    | p :: ps => (c :: p) :: ps

namespace WalletService

/-- `WalletService.encrypt`: AES-encrypt the plaintext under a fresh
16-byte IV (the IV is the explicit `iv` argument here, the randomness
being external) and return `iv.toString('hex') + ':' + ciphertextHex`. -/
def encrypt (cipherE : List Byte → List Byte → List Byte) (iv text : List Byte) :
    List Char :=
  hexEncode iv ++ ':' :: hexEncode (cipherE iv text)

/-- `WalletService.decrypt`: split on `':'` into IV and ciphertext (the
destructuring takes the first two parts), throw on a missing or empty
part, hex-decode both and run the decipher.  Thrown errors are `none`. -/
def decrypt (cipherD : List Byte → List Byte → List Byte) (encryptedData : List Char) :
    Option (List Byte) :=
  let parts := splitOnColon encryptedData
  match parts.get? 0, parts.get? 1 with
  | some ivHex, some encryptedText =>
    if ivHex = [] ∨ encryptedText = [] then none
    else
      match hexDecode ivHex, hexDecode encryptedText with
      | some iv, some ct => some (cipherD iv ct)
      | _, _ => none
  | _, _ => none

end WalletService

/-! ## Job payload types (src/backend/src/types, src/unnamed/part_002) -/

/-- The `TweetMention` interface. -/
structure TweetMention where
  tweet_id : String
  author_id : String
  author_username : String
  text : String
  in_reply_to_tweet_id : Option String
  created_at : String
deriving DecidableEq, Repr

/-- The `ParentTweetInfo` interface. -/
structure ParentTweetInfo where
  tweet_id : String
  author_id : String
  author_username : String
deriving DecidableEq, Repr

/-- The `DeploymentJob` interface: the payload enqueued for the worker. -/
structure DeploymentJob where
  mention : TweetMention
  command : DeployCommand
  parentTweet : ParentTweetInfo
deriving DecidableEq, Repr

/-- The `DeploymentResult` interface. -/
structure DeploymentResult where
  success : Bool
  tokenAddress : Option String
  poolId : Option String
  txHash : Option String
  error : Option String
deriving DecidableEq, Repr

/-! ## BlockchainDeployer (src/unnamed/part_007)

The Four.Meme HTTP API and the chain RPC are external collaborators; each
network step of `deploy` is an oracle field giving that call's result for
this job (`Except.error` is a thrown exception, whose message is the
string). -/

/-- Results of the four external calls inside `BlockchainDeployer.deploy`:
`fourMemeService.login`, `fourMemeService.getTokenCreatePayload` (the
`{createArg, signature}` pair), `contract.createToken` (the submitted
transaction's hash), and `tx.wait`. -/
structure ChainEnv where
  loginResult : Except String Unit
  payloadResult : Except String (String × String)
  submitResult : Except String String
  waitResult : Except String Unit
deriving Repr

namespace BlockchainDeployer

/-- `error.message || 'Unknown error'`. -/
def errText (e : String) : String :=
  if e = "" then "Unknown error" else e

/-- The failure result built by `deploy`'s catch block: `{ success:
false, error }`.  The `tx` variable is scoped inside the `try`, so this
result carries no transaction hash, token address or pool id — also when
the exception was thrown by `tx.wait()` after the transaction had been
submitted. -/
def failResult (e : String) : DeploymentResult :=
  { success := false, tokenAddress := none, poolId := none, txHash := none,
    error := some (errText e) }

/-- `BlockchainDeployer.deploy`, non-`MOCK_CHAIN` path: authenticate with
Four.Meme, fetch the signed creation payload, submit `createToken`, wait
for the receipt; any exception from those steps is caught inside `deploy`
and becomes `failResult`.  On success the result is `{ success: true,
tokenAddress: '0xPENDING_LOG_PARSE', poolId: '0x0', txHash: tx.hash }`. -/
def deploy (env : ChainEnv) : DeploymentResult :=
  match env.loginResult with
  | Except.error e => failResult e
  | Except.ok _ =>
    match env.payloadResult with
    | Except.error e => failResult e
    | Except.ok _ =>
      match env.submitResult with
      | Except.error e => failResult e
      | Except.ok txHash =>
        match env.waitResult with
        | Except.error e => failResult e
        | Except.ok _ =>
          { success := true, tokenAddress := some "0xPENDING_LOG_PARSE",
            poolId := some "0x0", txHash := some txHash, error := none }

end BlockchainDeployer

/-! ## processDeploymentJob (src/backend/src/workers/deploymentWorker.ts,
part of src/backend/src/db/index.ts as packaged) -/

/-- Externally visible operations a pipeline run performs, in order:
deployment-row creation, status writes, rate-limit attempt records, the
deployer invocation, and replies posted through the `ReplyPublisher`
(whose send results never affect the pipeline state). -/
inductive Ev
  | createdRow (deployTweetId : String)
  | statusSet (deployTweetId : String) (status : DeploymentStatus)
  | attemptRecorded (twitterId : String)
  | deployInvoked (deployTweetId : String)
  | replied (deployTweetId : String)
deriving DecidableEq, Repr

/-- The values `processDeploymentJob` returns to the queue layer. -/
inductive JobOutcome
  | skipped
  | wallet_missing
  | rate_limited
  | failed (error : Option String)
  | deployed (tokenAddress poolId txHash : Option String)
deriving DecidableEq, Repr

/-- `const RATE_LIMIT_COOLDOWN_MS = 60 * 60 * 1000` (1 hour). -/
def RATE_LIMIT_COOLDOWN_MS : Nat := 60 * 60 * 1000

/-- `processDeploymentJob`: one delivery of a deployment job.  The first
component is what the worker callback returns to BullMQ (`Except.error`
is the re-thrown exception of the catch block; within the modelled fault
surface — the storage engine itself is excluded by the spec — the only
throwing operation is a duplicate-key insert, and the `ReplyPublisher`
and `BlockchainDeployer.deploy` catch their own errors).  The second and
third components are the resulting database state and the run's trace. -/
def processDeploymentJob (data : DeploymentJob) (env : ChainEnv) (now : Nat)
    (db : DBState) : Except String JobOutcome × DBState × List Ev :=
  let mention := data.mention
  let command := data.command
  let parentTweet := data.parentTweet
  -- 1. Check if deployment already exists (idempotency)
  if deploymentExists db mention.tweet_id then
    (Except.ok JobOutcome.skipped, db, [])
  else
    -- 2. Resolve fee recipient wallet
    match WalletResolver.resolve db parentTweet.author_id with
    | none =>
      -- Create deployment record with wallet_missing status
      match createDeployment db
          { deployTweetId := mention.tweet_id
            parentTweetId := parentTweet.tweet_id
            deployerTwitterId := mention.author_id
            feeRecipientTwitterId := parentTweet.author_id
            feeRecipientWallet := ""
            tokenName := command.name
            tokenSymbol := command.ticker } with
      | (Except.error e, db1) =>
        -- the surrounding catch block: mark failed, then re-throw
        let db2 := updateDeploymentStatus db1 mention.tweet_id DeploymentStatus.failed
          { noUpdateData with errorMessage := some e.message } now
        (Except.error e.message, db2,
          [Ev.statusSet mention.tweet_id DeploymentStatus.failed])
      | (Except.ok _, db1) =>
        let db2 := updateDeploymentStatus db1 mention.tweet_id
          DeploymentStatus.wallet_missing noUpdateData now
        -- Post reply requesting wallet linking
        (Except.ok JobOutcome.wallet_missing, db2,
          [Ev.createdRow mention.tweet_id,
           Ev.statusSet mention.tweet_id DeploymentStatus.wallet_missing,
           Ev.replied mention.tweet_id])
    | some feeRecipientWallet =>
      -- 3. Check rate limits
      if ¬ checkRateLimit db mention.author_id RATE_LIMIT_COOLDOWN_MS now then
        (Except.ok JobOutcome.rate_limited, db, [Ev.replied mention.tweet_id])
      else
        -- 4. Create deployment record
        match createDeployment db
            { deployTweetId := mention.tweet_id
              parentTweetId := parentTweet.tweet_id
              deployerTwitterId := mention.author_id
              feeRecipientTwitterId := parentTweet.author_id
              feeRecipientWallet := feeRecipientWallet
              tokenName := command.name
              tokenSymbol := command.ticker } with
        | (Except.error e, db1) =>
          let db2 := updateDeploymentStatus db1 mention.tweet_id DeploymentStatus.failed
            { noUpdateData with errorMessage := some e.message } now
          (Except.error e.message, db2,
            [Ev.statusSet mention.tweet_id DeploymentStatus.failed])
        | (Except.ok _, db1) =>
          let db2 := updateDeploymentStatus db1 mention.tweet_id
            DeploymentStatus.processing noUpdateData now
          let db3 := recordDeployAttempt db2 mention.author_id now
          -- 5. Execute on-chain deployment
          let result := BlockchainDeployer.deploy env
          let evs := [Ev.createdRow mention.tweet_id,
                      Ev.statusSet mention.tweet_id DeploymentStatus.processing,
                      Ev.attemptRecorded mention.author_id,
                      Ev.deployInvoked mention.tweet_id]
          if ¬ result.success then
            let db4 := updateDeploymentStatus db3 mention.tweet_id DeploymentStatus.failed
              { noUpdateData with txHash := result.txHash, errorMessage := result.error } now
            (Except.ok (JobOutcome.failed result.error), db4,
              evs ++ [Ev.statusSet mention.tweet_id DeploymentStatus.failed,
                      Ev.replied mention.tweet_id])
          else
            -- 6. Update deployment record with success, 7. post reply
            let upd := { noUpdateData with
                         tokenAddress := result.tokenAddress,
                         poolId := result.poolId,
                         txHash := result.txHash }
            let db4 := updateDeploymentStatus db3 mention.tweet_id DeploymentStatus.deployed upd now
            (Except.ok (JobOutcome.deployed result.tokenAddress result.poolId result.txHash),
              db4,
              evs ++ [Ev.statusSet mention.tweet_id DeploymentStatus.deployed,
                      Ev.replied mention.tweet_id])

/-! ## The deployment worker (BullMQ options) and queued runs -/

/-- The `limiter` option of the worker: `{ max: 10, duration: 60000 }`
(at most 10 jobs started per rolling minute). -/
structure WorkerLimiter where
  max : Nat
  duration : Nat
deriving DecidableEq, Repr

/-- The options record passed to `new Worker('deployments', ...)`. -/
structure WorkerOptions where
  concurrency : Nat
  limiter : WorkerLimiter
deriving DecidableEq, Repr

/-- The literal options of `deploymentWorker`: `concurrency: 1` (process
one deployment at a time), `limiter: { max: 10, duration: 60000 }`. -/
def deploymentWorkerOptions : WorkerOptions :=
  { concurrency := 1, limiter := { max := 10, duration := 60000 } }

/-- One scheduling transition of the worker pool draining the
`deployments` queue, over the number of jobs currently executing the
processor callback: a new job may start only while fewer than
`concurrency` jobs are executing; a running job may finish. -/
inductive WorkerStep : Nat → Nat → Prop
  | start (n : Nat) : n < deploymentWorkerOptions.concurrency → WorkerStep n (n + 1)
  | done (n : Nat) : WorkerStep (n + 1) n

/-- Worker-pool states reachable from the idle pool. -/
inductive WorkerReachable : Nat → Prop
  | idle : WorkerReachable 0
  | step {n m : Nat} : WorkerReachable n → WorkerStep n m → WorkerReachable m

/-- One queue delivery: the job payload, the oracle for its external
steps, and the wall-clock time of the run. -/
structure Delivery where
  job : DeploymentJob
  env : ChainEnv
  now : Nat
deriving Repr

/-- Database state after one delivery. -/
def runState (d : Delivery) (db : DBState) : DBState :=
  (processDeploymentJob d.job d.env d.now db).2.1

/-- Trace of one delivery. -/
def runTrace (d : Delivery) (db : DBState) : List Ev :=
  (processDeploymentJob d.job d.env d.now db).2.2

/-- Database state after a sequence of deliveries (the worker runs them
one at a time — `concurrency: 1`). -/
def runSeqState : List Delivery → DBState → DBState
  | [], db => db
  | d :: ds, db => runSeqState ds (runState d db)

/-- Concatenated trace of a sequence of deliveries. -/
def runSeqTrace : List Delivery → DBState → List Ev
  | [], _ => []
  | d :: ds, db => runTrace d db ++ runSeqTrace ds (runState d db)

/-! ## Closed forms of one pipeline run, by branch -/

/-- The row `createDeployment` inserts for a job (status `pending`). -/
def pendingRow (data : DeploymentJob) (wallet : String) : Deployment :=
  { deploy_tweet_id := data.mention.tweet_id
    parent_tweet_id := data.parentTweet.tweet_id
    deployer_twitter_id := data.mention.author_id
    fee_recipient_twitter_id := data.parentTweet.author_id
    fee_recipient_wallet := wallet
    token_name := data.command.name
    token_symbol := data.command.ticker
    token_address := none
    pool_id := none
    tx_hash := none
    status := DeploymentStatus.pending
    error_message := none
    deployed_at := none }

/-- The stored row at the end of the wallet-missing branch. -/
def rowWalletMissing (data : DeploymentJob) : Deployment :=
  { pendingRow data "" with status := DeploymentStatus.wallet_missing }

/-- The stored row after the `processing` update of step 4. -/
def rowProcessing (data : DeploymentJob) (wallet : String) : Deployment :=
  { pendingRow data wallet with status := DeploymentStatus.processing }

/-! ## Status lifecycle machinery (for the monotonicity claim) -/

/-- The terminal statuses of the lifecycle. -/
def terminalStatus : DeploymentStatus → Bool
  | DeploymentStatus.deployed => true
  | DeploymentStatus.failed => true
  | DeploymentStatus.wallet_missing => true
  | _ => false

/-- Forward reachability (reflexive-transitive) in the status lifecycle
`pending → processing → deployed | failed`, `pending → wallet_missing`. -/
def statusForward : DeploymentStatus → DeploymentStatus → Bool
  | DeploymentStatus.pending, _ => true
  | DeploymentStatus.processing, DeploymentStatus.processing => true
  | DeploymentStatus.processing, DeploymentStatus.deployed => true
  | DeploymentStatus.processing, DeploymentStatus.failed => true
  | DeploymentStatus.deployed, DeploymentStatus.deployed => true
  | DeploymentStatus.failed, DeploymentStatus.failed => true
  | DeploymentStatus.wallet_missing, DeploymentStatus.wallet_missing => true
  | _, _ => false

/-- The sequence of status values written for one row id by a trace: row
creation stores `pending`, and each status update stores its status. -/
def statusHistory (id : String) : List Ev → List DeploymentStatus
  | [] => []
  | Ev.createdRow i :: rest =>
    (if i = id then [DeploymentStatus.pending] else []) ++ statusHistory id rest
  | Ev.statusSet i s :: rest => (if i = id then [s] else []) ++ statusHistory id rest
  | _ :: rest => statusHistory id rest

/-- Whether one status write is forward given the previous status of the
row (`none`: the write creates the row, so there is no transition). -/
def stepFromOK : Option DeploymentStatus → DeploymentStatus → Bool
  | none, _ => true
  | some s, s' => statusForward s s'

/-- Every consecutive pair of status writes is forward. -/
def statusChainOK : Option DeploymentStatus → List DeploymentStatus → Bool
  | _, [] => true
  | s, s' :: rest => stepFromOK s s' && statusChainOK (some s') rest

/-- The last written status, defaulting to the initial one. -/
def lastStatus : Option DeploymentStatus → List DeploymentStatus → Option DeploymentStatus
  | s, [] => s
  | _, s' :: rest => lastStatus (some s') rest

/-! ## Row multiplicity (the uniqueness constraint) -/

/-- Number of stored deployment rows carrying a given source-message id. -/
def rowCount (db : DBState) (id : String) : Nat :=
  (db.deployments.map Prod.fst).count id

/-! ## Concrete states for witnesses and counterexamples -/

/-- A linked user for witness states. -/
def userP1 : User :=
  { twitter_id := "p1", wallet_address := "0x00aa", private_key_encrypted := none,
    verified_at := 0 }

/-- A job whose mention is tweet `t1` by `a1`, replying to tweet `t0` by
`p1`. -/
def jobT1 : DeploymentJob :=
  { mention := { tweet_id := "t1", author_id := "a1", author_username := "alice",
                 text := "@bot deploy TOK Token", in_reply_to_tweet_id := some "t0",
                 created_at := "2025-01-01" }
    command := { ticker := "TOK", name := "Token" }
    parentTweet := { tweet_id := "t0", author_id := "p1", author_username := "bob" } }

/-- An all-successful chain oracle. -/
def envOk : ChainEnv :=
  { loginResult := Except.ok (), payloadResult := Except.ok ("arg", "sig"),
    submitResult := Except.ok "0xcc", waitResult := Except.ok () }

/-- Empty database. -/
def dbEmpty : DBState := { users := [], deployments := [], rate_limits := [] }

/-- Database with `p1` linked and nothing else. -/
def dbLinked : DBState := { users := [("p1", userP1)], deployments := [], rate_limits := [] }

/-- Parameters for the duplicate-create witness. -/
def c1p : CreateParams :=
  { deployTweetId := "t1", parentTweetId := "t0", deployerTwitterId := "a1",
    feeRecipientTwitterId := "p1", feeRecipientWallet := "0x00aa",
    tokenName := "Token", tokenSymbol := "TOK" }

/-- An already-deployed row for the terminality witness. -/
def c2row : Deployment :=
  { deploy_tweet_id := "t1", parent_tweet_id := "t0", deployer_twitter_id := "a1",
    fee_recipient_twitter_id := "p1", fee_recipient_wallet := "0x00aa",
    token_name := "Token", token_symbol := "TOK", token_address := some "0xdd",
    pool_id := some "0x0", tx_hash := some "0xcc", status := DeploymentStatus.deployed,
    error_message := none, deployed_at := some 5 }

/-- Database already holding the deployed row `t1`. -/
def c2db : DBState :=
  { users := [("p1", userP1)], deployments := [("t1", c2row)], rate_limits := [] }

/-- A redelivery of the job for `t1`. -/
def c2d : Delivery := { job := jobT1, env := envOk, now := 99 }

/-- Chain oracle in which the transaction is submitted (hash known) but
waiting for the receipt throws. -/
def c4env : ChainEnv :=
  { loginResult := Except.ok (), payloadResult := Except.ok ("arg", "sig"),
    submitResult := Except.ok "0xabc123",
    waitResult := Except.error "transaction wait timeout" }

/-- Database whose user `u1` has a stored encrypted custodial key (and a
stored address that itself satisfies the `valid_wallet` CHECK). -/
def c5db : DBState :=
  { users := [("u1", { twitter_id := "u1",
                       wallet_address := "0xbbbbbbbbbbbbbbbbbbbbbbbbbbbbbbbbbbbbbbbb",
                       private_key_encrypted := some "enckey", verified_at := 1 })],
    deployments := [], rate_limits := [] }

/-- Database with `p1` linked and a rate-limit record for `a1` recorded at
time 1000. -/
def c6db : DBState :=
  { users := [("p1", userP1)], deployments := [],
    rate_limits := [("a1", { last_deploy_at := 1000, deploy_count_24h := 1 })] }

/-! ## Theorems -/

theorem alistFind_alistSet_same {β : Type} (k : String) (v : β) (l : List (String × β)) :
    alistFind k (alistSet k v l) = some v := by
  induction l with
  | nil => simp [alistFind, alistSet]
  | cons hd tl ih =>
    obtain ⟨k', v'⟩ := hd
    by_cases h : k' = k <;> simp [alistFind, alistSet, h, ih]

theorem alistFind_alistSet_other {β : Type} (k k₀ : String) (v : β) (l : List (String × β))
    (h : k₀ ≠ k) : alistFind k₀ (alistSet k v l) = alistFind k₀ l := by
  have h' : ¬ k = k₀ := fun heq => h heq.symm
  induction l with
  | nil => simp [alistFind, alistSet, h']
  | cons hd tl ih =>
    obtain ⟨k', v'⟩ := hd
    by_cases hk : k' = k
    · subst hk
      simp [alistFind, alistSet, h']
    · simp only [alistSet, if_neg hk]
      by_cases hk0 : k' = k₀ <;> simp [alistFind, hk0, ih]

theorem hexDigitVal_hexDigitChar {n : Nat} (h : n < 16) :
    hexDigitVal (hexDigitChar n) = some ⟨n, h⟩ := by
  interval_cases n <;> rfl

theorem finByte_parts (b : Byte) (h1 : b.val / 16 < 16) (h2 : b.val % 16 < 16) :
    finByte ⟨b.val / 16, h1⟩ ⟨b.val % 16, h2⟩ = b := by
  apply Fin.ext
  simp only [finByte]
  omega

theorem hexDecode_hexEncode (bs : List Byte) : hexDecode (hexEncode bs) = some bs := by
  induction bs with
  | nil => rfl
  | cons b t ih =>
    have h1 : b.val / 16 < 16 := by
      have := b.isLt
      omega
    have h2 : b.val % 16 < 16 := Nat.mod_lt _ (by norm_num)
    have he : hexEncode (b :: t) =
        hexDigitChar (b.val / 16) :: hexDigitChar (b.val % 16) :: hexEncode t := by
      simp [hexEncode, hexByte]
    rw [he, hexDecode, hexDigitVal_hexDigitChar h1, hexDigitVal_hexDigitChar h2, ih]
    simp [finByte_parts b h1 h2]

theorem hexDigitChar_ne_colon (n : Nat) : hexDigitChar n ≠ ':' := by
  unfold hexDigitChar
  split <;> decide

theorem colon_notMem_hexEncode (bs : List Byte) : ':' ∉ hexEncode bs := by
  intro hmem
  simp only [hexEncode, List.mem_flatten, List.mem_map] at hmem
  obtain ⟨l, ⟨b, _, rfl⟩, hl⟩ := hmem
  simp only [hexByte, List.mem_cons, List.not_mem_nil, or_false] at hl
  rcases hl with h | h <;> exact hexDigitChar_ne_colon _ h.symm

theorem splitOnColon_cons_ne (c : Char) (t : List Char) (hc : c ≠ ':') :
    splitOnColon (c :: t) =
      match splitOnColon t with
      | [] => [[c]]
      | p :: ps => (c :: p) :: ps := by
  rw [splitOnColon.eq_def]
  split
  · simp_all
  · rename_i heq
    rw [List.cons.injEq] at heq
    exact absurd heq.1 hc
  · rename_i hguard heq
    rw [List.cons.injEq] at heq
    obtain ⟨h1, h2⟩ := heq
    subst h1
    subst h2
    rfl

theorem splitOnColon_no_colon (l : List Char) (h : ':' ∉ l) : splitOnColon l = [l] := by
  induction l with
  | nil => rfl
  | cons c t ih =>
    have hc : c ≠ ':' := fun hcc => h (hcc ▸ List.mem_cons_self c t)
    have ht : ':' ∉ t := fun hmem => h (List.mem_cons_of_mem c hmem)
    rw [splitOnColon_cons_ne c t hc, ih ht]

theorem splitOnColon_append_no_colon (l1 l2 : List Char) (h : ':' ∉ l1) :
    splitOnColon (l1 ++ ':' :: l2) = l1 :: splitOnColon l2 := by
  induction l1 with
  | nil => rfl
  | cons c t ih =>
    have hc : c ≠ ':' := fun hcc => h (hcc ▸ List.mem_cons_self c t)
    have ht : ':' ∉ t := fun hmem => h (List.mem_cons_of_mem c hmem)
    rw [List.cons_append, splitOnColon_cons_ne c _ hc, ih ht]

theorem hexEncode_ne_nil (bs : List Byte) (h : bs ≠ []) : hexEncode bs ≠ [] := by
  cases bs with
  | nil => exact absurd rfl h
  | cons b t => simp [hexEncode, hexByte]

theorem alistSet_alistSet {β : Type} (k : String) (v1 v2 : β) (l : List (String × β)) :
    alistSet k v2 (alistSet k v1 l) = alistSet k v2 l := by
  induction l with
  | nil => simp [alistSet]
  | cons hd tl ih =>
    obtain ⟨k', v'⟩ := hd
    by_cases h : k' = k <;> simp [alistSet, h, ih]

theorem errText_ne_empty (e : String) : BlockchainDeployer.errText e ≠ "" := by
  by_cases h : e = "" <;> simp [BlockchainDeployer.errText, h]

theorem optTruthy_errText (e : String) :
    optTruthy (some (BlockchainDeployer.errText e)) = true := by
  by_cases h : e = "" <;> simp [BlockchainDeployer.errText, optTruthy, h]

theorem run_eq_skipped (data : DeploymentJob) (env : ChainEnv) (now : Nat) (db : DBState)
    (h : deploymentExists db data.mention.tweet_id = true) :
    processDeploymentJob data env now db = (Except.ok JobOutcome.skipped, db, []) := by
  simp [processDeploymentJob, h]

theorem run_eq_wallet_missing (data : DeploymentJob) (env : ChainEnv) (now : Nat)
    (db : DBState)
    (hex : deploymentExists db data.mention.tweet_id = false)
    (hres : WalletResolver.resolve db data.parentTweet.author_id = none) :
    processDeploymentJob data env now db =
      (Except.ok JobOutcome.wallet_missing,
       { db with deployments :=
           alistSet data.mention.tweet_id (rowWalletMissing data) db.deployments },
       [Ev.createdRow data.mention.tweet_id,
        Ev.statusSet data.mention.tweet_id DeploymentStatus.wallet_missing,
        Ev.replied data.mention.tweet_id]) := by
  have hnone : (alistFind data.mention.tweet_id db.deployments).isSome = false := hex
  simp [processDeploymentJob, deploymentExists, createDeployment, updateDeploymentStatus,
    applyUpdate, optTruthy, noUpdateData, hnone, hres, alistFind_alistSet_same,
    alistSet_alistSet, rowWalletMissing, pendingRow]

theorem run_eq_rate_limited (data : DeploymentJob) (env : ChainEnv) (now : Nat)
    (db : DBState) (w : String)
    (hex : deploymentExists db data.mention.tweet_id = false)
    (hres : WalletResolver.resolve db data.parentTweet.author_id = some w)
    (hrl : checkRateLimit db data.mention.author_id RATE_LIMIT_COOLDOWN_MS now = false) :
    processDeploymentJob data env now db =
      (Except.ok JobOutcome.rate_limited, db, [Ev.replied data.mention.tweet_id]) := by
  simp [processDeploymentJob, hex, hres, hrl]

theorem run_eq_failed (data : DeploymentJob) (env : ChainEnv) (now : Nat)
    (db : DBState) (w : String) (e : String)
    (hex : deploymentExists db data.mention.tweet_id = false)
    (hres : WalletResolver.resolve db data.parentTweet.author_id = some w)
    (hrl : checkRateLimit db data.mention.author_id RATE_LIMIT_COOLDOWN_MS now = true)
    (hd : BlockchainDeployer.deploy env = BlockchainDeployer.failResult e) :
    processDeploymentJob data env now db =
      (Except.ok (JobOutcome.failed (some (BlockchainDeployer.errText e))),
       { db with
         deployments := alistSet data.mention.tweet_id
           { rowProcessing data w with
             status := DeploymentStatus.failed
             error_message := some (BlockchainDeployer.errText e) } db.deployments
         rate_limits := bumpAttempt db.rate_limits data.mention.author_id now },
       [Ev.createdRow data.mention.tweet_id,
        Ev.statusSet data.mention.tweet_id DeploymentStatus.processing,
        Ev.attemptRecorded data.mention.author_id,
        Ev.deployInvoked data.mention.tweet_id,
        Ev.statusSet data.mention.tweet_id DeploymentStatus.failed,
        Ev.replied data.mention.tweet_id]) := by
  have hnone : (alistFind data.mention.tweet_id db.deployments).isSome = false := hex
  simp [processDeploymentJob, deploymentExists, createDeployment, updateDeploymentStatus,
    recordDeployAttempt, applyUpdate, noUpdateData, hnone, hres, hrl, hd,
    BlockchainDeployer.failResult, optTruthy, optTruthy_errText, errText_ne_empty,
    alistFind_alistSet_same, alistSet_alistSet, rowProcessing, pendingRow]

theorem run_eq_success (data : DeploymentJob) (env : ChainEnv) (now : Nat)
    (db : DBState) (w : String) (h : String)
    (hex : deploymentExists db data.mention.tweet_id = false)
    (hres : WalletResolver.resolve db data.parentTweet.author_id = some w)
    (hrl : checkRateLimit db data.mention.author_id RATE_LIMIT_COOLDOWN_MS now = true)
    (hlogin : env.loginResult = Except.ok ())
    (hpayload : ∃ p, env.payloadResult = Except.ok p)
    (hsubmit : env.submitResult = Except.ok h)
    (hwait : env.waitResult = Except.ok ()) :
    processDeploymentJob data env now db =
      (Except.ok (JobOutcome.deployed (some "0xPENDING_LOG_PARSE") (some "0x0") (some h)),
       { db with
         deployments := alistSet data.mention.tweet_id
           { rowProcessing data w with
             status := DeploymentStatus.deployed
             token_address := some "0xPENDING_LOG_PARSE"
             pool_id := some "0x0"
             tx_hash := if h = "" then none else some h
             deployed_at := some now } db.deployments
         rate_limits := bumpAttempt db.rate_limits data.mention.author_id now },
       [Ev.createdRow data.mention.tweet_id,
        Ev.statusSet data.mention.tweet_id DeploymentStatus.processing,
        Ev.attemptRecorded data.mention.author_id,
        Ev.deployInvoked data.mention.tweet_id,
        Ev.statusSet data.mention.tweet_id DeploymentStatus.deployed,
        Ev.replied data.mention.tweet_id]) := by
  have hnone : (alistFind data.mention.tweet_id db.deployments).isSome = false := hex
  obtain ⟨p, hp⟩ := hpayload
  have hdep : BlockchainDeployer.deploy env =
      { success := true, tokenAddress := some "0xPENDING_LOG_PARSE",
        poolId := some "0x0", txHash := some h, error := none } := by
    simp [BlockchainDeployer.deploy, hlogin, hp, hsubmit, hwait]
  by_cases hh : h = "" <;>
    simp [processDeploymentJob, deploymentExists, createDeployment, updateDeploymentStatus,
      recordDeployAttempt, applyUpdate, noUpdateData, hnone, hres, hrl, hdep,
      optTruthy, alistFind_alistSet_same, alistSet_alistSet, rowProcessing, pendingRow, hh]

/-- Every `deploy` run either ends in the internal catch block
(`failResult`) or all four external calls succeeded. -/
theorem deploy_shape (env : ChainEnv) :
    (∃ e, BlockchainDeployer.deploy env = BlockchainDeployer.failResult e) ∨
    (env.loginResult = Except.ok () ∧ (∃ p, env.payloadResult = Except.ok p) ∧
     (∃ h, env.submitResult = Except.ok h) ∧ env.waitResult = Except.ok ()) := by
  rcases hl : env.loginResult with e | u
  · exact Or.inl ⟨e, by simp [BlockchainDeployer.deploy, hl]⟩
  · rcases hp : env.payloadResult with e | p
    · exact Or.inl ⟨e, by simp [BlockchainDeployer.deploy, hl, hp]⟩
    · rcases hs : env.submitResult with e | h
      · exact Or.inl ⟨e, by simp [BlockchainDeployer.deploy, hl, hp, hs]⟩
      · rcases hw : env.waitResult with e | u2
        · exact Or.inl ⟨e, by simp [BlockchainDeployer.deploy, hl, hp, hs, hw]⟩
        · right
          refine ⟨by cases u; rfl, ⟨p, rfl⟩, ⟨h, rfl⟩, by cases u2; rfl⟩

/-- Exhaustive case split over the five control-flow branches of one
pipeline run. -/
theorem run_cases (data : DeploymentJob) (env : ChainEnv) (now : Nat) (db : DBState) :
    deploymentExists db data.mention.tweet_id = true ∨
    (deploymentExists db data.mention.tweet_id = false ∧
      WalletResolver.resolve db data.parentTweet.author_id = none) ∨
    (deploymentExists db data.mention.tweet_id = false ∧
      ∃ w, WalletResolver.resolve db data.parentTweet.author_id = some w ∧
        checkRateLimit db data.mention.author_id RATE_LIMIT_COOLDOWN_MS now = false) ∨
    (deploymentExists db data.mention.tweet_id = false ∧
      ∃ w, WalletResolver.resolve db data.parentTweet.author_id = some w ∧
        checkRateLimit db data.mention.author_id RATE_LIMIT_COOLDOWN_MS now = true ∧
        ∃ e, BlockchainDeployer.deploy env = BlockchainDeployer.failResult e) ∨
    (deploymentExists db data.mention.tweet_id = false ∧
      ∃ w, WalletResolver.resolve db data.parentTweet.author_id = some w ∧
        checkRateLimit db data.mention.author_id RATE_LIMIT_COOLDOWN_MS now = true ∧
        env.loginResult = Except.ok () ∧ (∃ p, env.payloadResult = Except.ok p) ∧
        (∃ h, env.submitResult = Except.ok h) ∧ env.waitResult = Except.ok ()) := by
  by_cases hex : deploymentExists db data.mention.tweet_id = true
  · exact Or.inl hex
  · have hex' : deploymentExists db data.mention.tweet_id = false := by
      simpa using hex
    rcases hres : WalletResolver.resolve db data.parentTweet.author_id with _ | w
    · exact Or.inr (Or.inl ⟨hex', rfl⟩)
    · by_cases hrl : checkRateLimit db data.mention.author_id RATE_LIMIT_COOLDOWN_MS now = true
      · rcases deploy_shape env with ⟨e, hd⟩ | hok
        · exact Or.inr (Or.inr (Or.inr (Or.inl ⟨hex', w, rfl, hrl, e, hd⟩)))
        · exact Or.inr (Or.inr (Or.inr (Or.inr
            ⟨hex', w, rfl, hrl, hok.1, hok.2.1, hok.2.2.1, hok.2.2.2⟩)))
      · have hrl' : checkRateLimit db data.mention.author_id RATE_LIMIT_COOLDOWN_MS now = false := by
          simpa using hrl
        exact Or.inr (Or.inr (Or.inl ⟨hex', w, rfl, hrl'⟩))

/-- A row already stored under some source-message id is returned
unchanged by every later pipeline run: each mutation path of a run first
establishes that no row exists for its own message id and only writes
under that id. -/
theorem run_preserves_existing_row (d : Delivery) (db : DBState) (id : String)
    (r : Deployment) (h : getDeploymentByTweetId db id = some r) :
    getDeploymentByTweetId (runState d db) id = some r := by
  have hne_of_hex : deploymentExists db d.job.mention.tweet_id = false →
      id ≠ d.job.mention.tweet_id := by
    intro hex heq
    rw [heq] at h
    rw [getDeploymentByTweetId] at h
    rw [deploymentExists, h] at hex
    simp at hex
  rcases run_cases d.job d.env d.now db with hex | ⟨hex, hres⟩ |
    ⟨hex, w, hres, hrl⟩ | ⟨hex, w, hres, hrl, e, hd⟩ |
    ⟨hex, w, hres, hrl, hl, hp, ⟨hh, hs⟩, hw⟩
  · simpa [runState, run_eq_skipped d.job d.env d.now db hex] using h
  · have hne := hne_of_hex hex
    simpa [runState, run_eq_wallet_missing d.job d.env d.now db hex hres,
      getDeploymentByTweetId, alistFind_alistSet_other _ _ _ _ hne] using h
  · simpa [runState, run_eq_rate_limited d.job d.env d.now db w hex hres hrl] using h
  · have hne := hne_of_hex hex
    simpa [runState, run_eq_failed d.job d.env d.now db w e hex hres hrl hd,
      getDeploymentByTweetId, alistFind_alistSet_other _ _ _ _ hne] using h
  · have hne := hne_of_hex hex
    simpa [runState, run_eq_success d.job d.env d.now db w hh hex hres hrl hl hp hs hw,
      getDeploymentByTweetId, alistFind_alistSet_other _ _ _ _ hne] using h

/-- Rows survive whole sequences of runs unchanged once stored. -/
theorem runSeq_preserves_existing_row (ds : List Delivery) (db : DBState) (id : String)
    (r : Deployment) (h : getDeploymentByTweetId db id = some r) :
    getDeploymentByTweetId (runSeqState ds db) id = some r := by
  induction ds generalizing db with
  | nil => simpa [runSeqState] using h
  | cons d ds ih =>
    rw [runSeqState]
    exact ih (runState d db) (run_preserves_existing_row d db id r h)

theorem exists_false_find_none (db : DBState) (i : String)
    (h : deploymentExists db i = false) : alistFind i db.deployments = none := by
  cases hf : alistFind i db.deployments with
  | none => rfl
  | some r =>
    rw [deploymentExists, hf] at h
    simp at h

theorem statusHistory_append (id : String) (l1 l2 : List Ev) :
    statusHistory id (l1 ++ l2) = statusHistory id l1 ++ statusHistory id l2 := by
  induction l1 with
  | nil => rfl
  | cons e rest ih => cases e <;> simp [statusHistory, ih]

theorem statusChainOK_append (s : Option DeploymentStatus) (l1 l2 : List DeploymentStatus) :
    statusChainOK s (l1 ++ l2) =
      (statusChainOK s l1 && statusChainOK (lastStatus s l1) l2) := by
  induction l1 generalizing s with
  | nil => simp [statusChainOK, lastStatus]
  | cons x rest ih => simp [statusChainOK, lastStatus, ih, Bool.and_assoc]

theorem lastStatus_append (s : Option DeploymentStatus) (l1 l2 : List DeploymentStatus) :
    lastStatus s (l1 ++ l2) = lastStatus (lastStatus s l1) l2 := by
  induction l1 generalizing s with
  | nil => rfl
  | cons x rest ih => simp [lastStatus, ih]

/-- One run writes statuses forward only, and leaves the row's status
equal to the last written one (or untouched when it writes none). -/
theorem run_status_chain (d : Delivery) (db : DBState) (id : String) :
    statusChainOK ((getDeploymentByTweetId db id).map Deployment.status)
        (statusHistory id (runTrace d db)) = true ∧
    (getDeploymentByTweetId (runState d db) id).map Deployment.status =
      lastStatus ((getDeploymentByTweetId db id).map Deployment.status)
        (statusHistory id (runTrace d db)) := by
  rcases run_cases d.job d.env d.now db with hex | ⟨hex, hres⟩ |
    ⟨hex, w, hres, hrl⟩ | ⟨hex, w, hres, hrl, e, hd⟩ |
    ⟨hex, w, hres, hrl, hl, hp, ⟨hh, hs⟩, hw⟩
  · simp [runTrace, runState, run_eq_skipped d.job d.env d.now db hex, statusHistory,
      statusChainOK, lastStatus]
  · by_cases hid : id = d.job.mention.tweet_id
    · subst hid
      have hstart := exists_false_find_none db d.job.mention.tweet_id hex
      simp [runTrace, runState, run_eq_wallet_missing d.job d.env d.now db hex hres,
        statusHistory, statusChainOK, stepFromOK, statusForward, lastStatus,
        getDeploymentByTweetId, hstart, alistFind_alistSet_same, rowWalletMissing,
        pendingRow]
    · have hne : d.job.mention.tweet_id ≠ id := fun hcc => hid hcc.symm
      simp [runTrace, runState, run_eq_wallet_missing d.job d.env d.now db hex hres,
        statusHistory, statusChainOK, lastStatus, hne, getDeploymentByTweetId,
        alistFind_alistSet_other _ _ _ _ hid]
  · simp [runTrace, runState, run_eq_rate_limited d.job d.env d.now db w hex hres hrl,
      statusHistory, statusChainOK, lastStatus]
  · by_cases hid : id = d.job.mention.tweet_id
    · subst hid
      have hstart := exists_false_find_none db d.job.mention.tweet_id hex
      simp [runTrace, runState, run_eq_failed d.job d.env d.now db w e hex hres hrl hd,
        statusHistory, statusChainOK, stepFromOK, statusForward, lastStatus,
        getDeploymentByTweetId, hstart, alistFind_alistSet_same, rowProcessing, pendingRow]
    · have hne : d.job.mention.tweet_id ≠ id := fun hcc => hid hcc.symm
      simp [runTrace, runState, run_eq_failed d.job d.env d.now db w e hex hres hrl hd,
        statusHistory, statusChainOK, lastStatus, hne, getDeploymentByTweetId,
        alistFind_alistSet_other _ _ _ _ hid]
  · by_cases hid : id = d.job.mention.tweet_id
    · subst hid
      have hstart := exists_false_find_none db d.job.mention.tweet_id hex
      simp [runTrace, runState,
        run_eq_success d.job d.env d.now db w hh hex hres hrl hl hp hs hw,
        statusHistory, statusChainOK, stepFromOK, statusForward, lastStatus,
        getDeploymentByTweetId, hstart, alistFind_alistSet_same, rowProcessing, pendingRow]
    · have hne : d.job.mention.tweet_id ≠ id := fun hcc => hid hcc.symm
      simp [runTrace, runState,
        run_eq_success d.job d.env d.now db w hh hex hres hrl hl hp hs hw,
        statusHistory, statusChainOK, lastStatus, hne, getDeploymentByTweetId,
        alistFind_alistSet_other _ _ _ _ hid]

/-- Status writes are forward-only across whole sequences of runs. -/
theorem runSeq_status_chain (ds : List Delivery) (db : DBState) (id : String) :
    statusChainOK ((getDeploymentByTweetId db id).map Deployment.status)
        (statusHistory id (runSeqTrace ds db)) = true ∧
    (getDeploymentByTweetId (runSeqState ds db) id).map Deployment.status =
      lastStatus ((getDeploymentByTweetId db id).map Deployment.status)
        (statusHistory id (runSeqTrace ds db)) := by
  induction ds generalizing db with
  | nil => simp [runSeqTrace, runSeqState, statusHistory, statusChainOK, lastStatus]
  | cons d ds ih =>
    obtain ⟨h1, h2⟩ := run_status_chain d db id
    obtain ⟨ih1, ih2⟩ := ih (runState d db)
    rw [runSeqTrace, runSeqState, statusHistory_append]
    constructor
    · rw [statusChainOK_append, h1, Bool.true_and, ← h2]
      exact ih1
    · rw [lastStatus_append, ← h2, ih2]

/-! ## At-most-once deployer invocation machinery -/

theorem run_preserves_exists (d : Delivery) (db : DBState) (id : String)
    (h : deploymentExists db id = true) : deploymentExists (runState d db) id = true := by
  cases hf : alistFind id db.deployments with
  | none =>
    rw [deploymentExists, hf] at h
    simp at h
  | some r =>
    have hrow : getDeploymentByTweetId db id = some r := hf
    have h2 := run_preserves_existing_row d db id r hrow
    rw [deploymentExists, show alistFind id (runState d db).deployments = some r from h2]
    rfl

/-- One run invokes the deployer at most once, only ever for its own
message id, never when a row for that id already exists, and a run that
does invoke it leaves a row stored for that id. -/
theorem run_invoked_count (d : Delivery) (db : DBState) (id : String) :
    ((runTrace d db).count (Ev.deployInvoked id) = 0 ∨
      ((runTrace d db).count (Ev.deployInvoked id) = 1 ∧
       deploymentExists (runState d db) id = true)) ∧
    (deploymentExists db id = true → (runTrace d db).count (Ev.deployInvoked id) = 0) := by
  rcases run_cases d.job d.env d.now db with hex | ⟨hex, hres⟩ |
    ⟨hex, w, hres, hrl⟩ | ⟨hex, w, hres, hrl, e, hd⟩ |
    ⟨hex, w, hres, hrl, hl, hp, ⟨hh, hs⟩, hw⟩
  · simp [runTrace, run_eq_skipped d.job d.env d.now db hex]
  · simp [runTrace, run_eq_wallet_missing d.job d.env d.now db hex hres]
  · simp [runTrace, run_eq_rate_limited d.job d.env d.now db w hex hres hrl]
  · by_cases hid : id = d.job.mention.tweet_id
    · subst hid
      constructor
      · right
        constructor
        · simp [runTrace, run_eq_failed d.job d.env d.now db w e hex hres hrl hd,
            List.count_cons]
        · simp [runState, run_eq_failed d.job d.env d.now db w e hex hres hrl hd,
            deploymentExists, alistFind_alistSet_same]
      · intro hcon
        rw [hex] at hcon
        simp at hcon
    · have hne : d.job.mention.tweet_id ≠ id := fun hcc => hid hcc.symm
      simp [runTrace, run_eq_failed d.job d.env d.now db w e hex hres hrl hd,
        List.count_cons, hne]
  · by_cases hid : id = d.job.mention.tweet_id
    · subst hid
      constructor
      · right
        constructor
        · simp [runTrace, run_eq_success d.job d.env d.now db w hh hex hres hrl hl hp hs hw,
            List.count_cons]
        · simp [runState, run_eq_success d.job d.env d.now db w hh hex hres hrl hl hp hs hw,
            deploymentExists, alistFind_alistSet_same]
      · intro hcon
        rw [hex] at hcon
        simp at hcon
    · have hne : d.job.mention.tweet_id ≠ id := fun hcc => hid hcc.symm
      simp [runTrace, run_eq_success d.job d.env d.now db w hh hex hres hrl hl hp hs hw,
        List.count_cons, hne]

/-- Over any sequence of deliveries, the deployer is invoked at most once
per message id, and never once a row for the id is already stored. -/
theorem runSeq_invoked_count (ds : List Delivery) (db : DBState) (id : String) :
    (runSeqTrace ds db).count (Ev.deployInvoked id) ≤ 1 ∧
    (deploymentExists db id = true → (runSeqTrace ds db).count (Ev.deployInvoked id) = 0) := by
  induction ds generalizing db with
  | nil => simp [runSeqTrace]
  | cons d ds ih =>
    obtain ⟨h1, h2⟩ := run_invoked_count d db id
    obtain ⟨ih1, ih2⟩ := ih (runState d db)
    rw [runSeqTrace, List.count_append]
    constructor
    · rcases h1 with h0 | ⟨hc1, hex1⟩
      · rw [h0]
        simpa using ih1
      · rw [hc1, ih2 hex1]
    · intro hex
      rw [h2 hex, ih2 (run_preserves_exists d db id hex)]

theorem count_zero_of_find_none {β : Type} (k : String) (l : List (String × β))
    (h : alistFind k l = none) : (l.map Prod.fst).count k = 0 := by
  induction l with
  | nil => simp
  | cons hd tl ih =>
    obtain ⟨k', v'⟩ := hd
    rw [alistFind] at h
    by_cases hk : k' = k
    · simp [hk] at h
    · rw [if_neg hk] at h
      have hne : ¬ k = k' := fun hcc => hk hcc.symm
      simp [List.count_cons, ih h, hne]

theorem count_one_alistSet_absent {β : Type} (k : String) (v : β) (l : List (String × β))
    (h : alistFind k l = none) : ((alistSet k v l).map Prod.fst).count k = 1 := by
  induction l with
  | nil => simp [alistSet, List.count_cons]
  | cons hd tl ih =>
    obtain ⟨k', v'⟩ := hd
    rw [alistFind] at h
    by_cases hk : k' = k
    · simp [hk] at h
    · rw [if_neg hk] at h
      have hne : ¬ k = k' := fun hcc => hk hcc.symm
      simp [alistSet, if_neg hk, List.count_cons, ih h, hne]

/-! ## Substring containment lemmas (for the parser guard) -/

theorem containsSub_iff (pat l : List Char) : containsSub pat l = true ↔ pat <:+: l := by
  rw [containsSub, List.any_eq_true]
  constructor
  · rintro ⟨t, ht, hp⟩
    rw [List.mem_tails] at ht
    rw [List.isPrefixOf_iff_prefix] at hp
    exact List.infix_iff_prefix_suffix.mpr ⟨t, hp, ht⟩
  · intro h
    obtain ⟨t, hp, ht⟩ := List.infix_iff_prefix_suffix.mp h
    exact ⟨t, (List.mem_tails _ _).mpr ht, List.isPrefixOf_iff_prefix.mpr hp⟩

theorem trimText_isInfix (l : List Char) : trimText l <:+: l := by
  rw [trimText]
  have h1 : l.dropWhile isJsSpace <:+ l := List.dropWhile_suffix _
  have h2 : (l.dropWhile isJsSpace).reverse.dropWhile isJsSpace <:+
      (l.dropWhile isJsSpace).reverse := List.dropWhile_suffix _
  have h3 : ((l.dropWhile isJsSpace).reverse.dropWhile isJsSpace).reverse <+:
      l.dropWhile isJsSpace := by
    rw [← List.reverse_suffix]
    simpa using h2
  exact h3.isInfix.trans h1.isInfix

theorem containsSub_of_normalized (pat text : List Char)
    (h : containsSub pat (lowerStr (trimText text)) = true) :
    containsSub pat (lowerStr text) = true := by
  rw [containsSub_iff] at h ⊢
  exact h.trans ((trimText_isInfix text).map Char.toLower)

/-! ## Encrypt/decrypt round trip -/

theorem walletService_decrypt_encrypt (cipherE cipherD : List Byte → List Byte → List Byte)
    (iv text : List Byte)
    (hinv : cipherD iv (cipherE iv text) = text)
    (hiv : iv.length = 16)
    (hct : cipherE iv text ≠ []) :
    WalletService.decrypt cipherD (WalletService.encrypt cipherE iv text) = some text := by
  have hivne : iv ≠ [] := by
    intro h
    rw [h] at hiv
    simp at hiv
  have h1 : splitOnColon (hexEncode iv ++ ':' :: hexEncode (cipherE iv text)) =
      [hexEncode iv, hexEncode (cipherE iv text)] := by
    rw [splitOnColon_append_no_colon _ _ (colon_notMem_hexEncode iv),
      splitOnColon_no_colon _ (colon_notMem_hexEncode _)]
  rw [WalletService.encrypt, WalletService.decrypt]
  simp only [h1, List.get?_eq_getElem?]
  simp [hexEncode_ne_nil iv hivne, hexEncode_ne_nil _ hct, hexDecode_hexEncode, hinv]

/-! ## The claims -/

/-- C1: calling the Deployment Store's `create` twice with the same
source-message id yields exactly one stored row — the second call fails
with the duplicate-key error of the `unique_deploy_tweet` constraint and
leaves the store unchanged — and over any sequence of pipeline runs the
Deployment Executor's on-chain steps are invoked at most once per
source-message id. -/
theorem c1_create_idempotent_single_invocation :
    (∀ (db : DBState) (p : CreateParams) (r : Deployment) (db1 : DBState),
        createDeployment db p = (Except.ok r, db1) →
        rowCount db1 p.deployTweetId = 1 ∧
        createDeployment db1 p = (Except.error DBError.duplicateKey, db1)) ∧
    (∀ (ds : List Delivery) (db : DBState) (id : String),
        (runSeqTrace ds db).count (Ev.deployInvoked id) ≤ 1) := by
  constructor
  · intro db p r db1 h
    by_cases hf : (alistFind p.deployTweetId db.deployments).isSome
    · rw [createDeployment, if_pos hf] at h
      simp at h
    · rw [createDeployment, if_neg hf] at h
      rw [Prod.mk.injEq] at h
      obtain ⟨hr, hdb⟩ := h
      have hnone : alistFind p.deployTweetId db.deployments = none := by
        cases hx : alistFind p.deployTweetId db.deployments with
        | none => rfl
        | some _ =>
          rw [hx] at hf
          simp at hf
      subst hdb
      refine ⟨count_one_alistSet_absent _ _ _ hnone, ?_⟩
      simp [createDeployment, alistFind_alistSet_same]
  · exact fun ds db id => (runSeq_invoked_count ds db id).1

/-- Witness for C1 at a concrete store and parameter record. -/
theorem c1_witness :
    rowCount (createDeployment dbEmpty c1p).2 c1p.deployTweetId = 1 ∧
    createDeployment (createDeployment dbEmpty c1p).2 c1p =
      (Except.error DBError.duplicateKey, (createDeployment dbEmpty c1p).2) :=
  c1_create_idempotent_single_invocation.1 dbEmpty c1p _ _ rfl

/-- C2: across any sequence of pipeline runs, the status writes for any
source-message id follow the lifecycle forward only (in particular never
`deployed → processing` or `deployed → pending`), and a row whose status
is terminal (`deployed`, `failed` or `wallet_missing`) is never changed
by any later run. -/
theorem c2_status_monotonic (ds : List Delivery) (db : DBState) (id : String) :
    statusChainOK ((getDeploymentByTweetId db id).map Deployment.status)
        (statusHistory id (runSeqTrace ds db)) = true ∧
    ∀ r, getDeploymentByTweetId db id = some r → terminalStatus r.status = true →
      getDeploymentByTweetId (runSeqState ds db) id = some r :=
  ⟨(runSeq_status_chain ds db id).1,
   fun r hr _ => runSeq_preserves_existing_row ds db id r hr⟩

/-- Witness for C2: a deployed row survives a redelivery unchanged. -/
theorem c2_witness :
    getDeploymentByTweetId (runSeqState [c2d] c2db) "t1" = some c2row :=
  (c2_status_monotonic [c2d] c2db "t1").2 c2row rfl (by decide)

/-- C3: a fresh job whose fee-recipient identity has no linked wallet
ends with outcome `wallet_missing`, stores the row for its message id
with the terminal status `wallet_missing` (not `failed`), and never
invokes the deployer's on-chain submission step. -/
theorem c3_wallet_missing_path (data : DeploymentJob) (env : ChainEnv) (now : Nat)
    (db : DBState)
    (hex : deploymentExists db data.mention.tweet_id = false)
    (hres : WalletResolver.resolve db data.parentTweet.author_id = none) :
    (processDeploymentJob data env now db).1 = Except.ok JobOutcome.wallet_missing ∧
    (getDeploymentByTweetId (processDeploymentJob data env now db).2.1
        data.mention.tweet_id).map Deployment.status =
      some DeploymentStatus.wallet_missing ∧
    ∀ i, Ev.deployInvoked i ∉ (processDeploymentJob data env now db).2.2 := by
  rw [run_eq_wallet_missing data env now db hex hres]
  refine ⟨rfl, ?_, ?_⟩
  · simp [getDeploymentByTweetId, alistFind_alistSet_same, rowWalletMissing, pendingRow]
  · intro i
    simp

/-- Witness for C3 on the empty database (nobody linked). -/
theorem c3_witness :
    (processDeploymentJob jobT1 envOk 0 dbEmpty).1 = Except.ok JobOutcome.wallet_missing ∧
    (getDeploymentByTweetId (processDeploymentJob jobT1 envOk 0 dbEmpty).2.1
        jobT1.mention.tweet_id).map Deployment.status =
      some DeploymentStatus.wallet_missing ∧
    ∀ i, Ev.deployInvoked i ∉ (processDeploymentJob jobT1 envOk 0 dbEmpty).2.2 :=
  c3_wallet_missing_path jobT1 envOk 0 dbEmpty (by decide) (by decide)

/-- C4 counterexample: with the transaction submitted (its hash is known
to be `0xabc123`) and `tx.wait()` throwing, the run persists status
`failed` with the error captured, but the row's `tx_hash` stays null —
the already-submitted hash is NOT recorded, contradicting the claim. -/
theorem c4_counterexample :
    c4env.submitResult = Except.ok "0xabc123" ∧
    (processDeploymentJob jobT1 c4env 1000 dbLinked).1 =
      Except.ok (JobOutcome.failed (some "transaction wait timeout")) ∧
    (getDeploymentByTweetId (processDeploymentJob jobT1 c4env 1000 dbLinked).2.1
        "t1").map Deployment.status = some DeploymentStatus.failed ∧
    (getDeploymentByTweetId (processDeploymentJob jobT1 c4env 1000 dbLinked).2.1
        "t1").map Deployment.tx_hash = some none := by
  refine ⟨rfl, rfl, ?_, ?_⟩ <;> decide

/-- C4 as amended: when the executor's external steps throw, the run
ends with status `failed`, the error message captured, and no exception
re-thrown to the queue layer (the outcome is `Except.ok`) — but the
failure result carries no transaction hash, so the row's `tx_hash`
remains null even when the transaction had been submitted. -/
theorem c4_amended_failed_no_txhash (data : DeploymentJob) (env : ChainEnv) (now : Nat)
    (db : DBState) (w e : String)
    (hex : deploymentExists db data.mention.tweet_id = false)
    (hres : WalletResolver.resolve db data.parentTweet.author_id = some w)
    (hrl : checkRateLimit db data.mention.author_id RATE_LIMIT_COOLDOWN_MS now = true)
    (hd : BlockchainDeployer.deploy env = BlockchainDeployer.failResult e) :
    (processDeploymentJob data env now db).1 =
      Except.ok (JobOutcome.failed (some (BlockchainDeployer.errText e))) ∧
    (getDeploymentByTweetId (processDeploymentJob data env now db).2.1
        data.mention.tweet_id).map Deployment.status = some DeploymentStatus.failed ∧
    (getDeploymentByTweetId (processDeploymentJob data env now db).2.1
        data.mention.tweet_id).map Deployment.error_message =
      some (some (BlockchainDeployer.errText e)) ∧
    (getDeploymentByTweetId (processDeploymentJob data env now db).2.1
        data.mention.tweet_id).map Deployment.tx_hash = some none := by
  rw [run_eq_failed data env now db w e hex hres hrl hd]
  refine ⟨rfl, ?_, ?_, ?_⟩ <;>
    simp [getDeploymentByTweetId, alistFind_alistSet_same, rowProcessing, pendingRow]

/-- Witness for the amended C4 at the concrete wait-timeout oracle. -/
theorem c4_witness :
    (processDeploymentJob jobT1 c4env 1000 dbLinked).1 =
      Except.ok (JobOutcome.failed
        (some (BlockchainDeployer.errText "transaction wait timeout"))) ∧
    (getDeploymentByTweetId (processDeploymentJob jobT1 c4env 1000 dbLinked).2.1
        jobT1.mention.tweet_id).map Deployment.status = some DeploymentStatus.failed ∧
    (getDeploymentByTweetId (processDeploymentJob jobT1 c4env 1000 dbLinked).2.1
        jobT1.mention.tweet_id).map Deployment.error_message =
      some (some (BlockchainDeployer.errText "transaction wait timeout")) ∧
    (getDeploymentByTweetId (processDeploymentJob jobT1 c4env 1000 dbLinked).2.1
        jobT1.mention.tweet_id).map Deployment.tx_hash = some none :=
  c4_amended_failed_no_txhash jobT1 c4env 1000 dbLinked "0x00aa" "transaction wait timeout"
    (by decide) (by decide) (by decide) (by decide)

/-- C5 counterexample: user `u1` has a stored encrypted custodial key;
`link` with a schema-valid address (the lower-cased value passes the
`valid_wallet` CHECK, so the upsert commits) succeeds, overwrites the
address — and leaves the stored key null, not the prior value,
contradicting "leaves the custodial-key field unchanged". -/
theorem c5_counterexample :
    (getUserByTwitterId c5db "u1").map User.private_key_encrypted = some (some "enckey") ∧
    validWallet
      (lowerString "0xAaBbCcDd00112233445566778899aAbBcCdDeEfF") = true ∧
    (WalletResolver.link c5db "u1" "0xAaBbCcDd00112233445566778899aAbBcCdDeEfF" 7).1 =
      Except.ok () ∧
    (getUserByTwitterId
      (WalletResolver.link c5db "u1" "0xAaBbCcDd00112233445566778899aAbBcCdDeEfF" 7).2
      "u1").map User.private_key_encrypted = some none := by
  refine ⟨rfl, by decide, rfl, by decide⟩

/-- C5 as amended: `link(identity, address)` runs the upsert against the
`valid_wallet` CHECK on the stored (lower-cased) value.  When the check
passes, the row is written with the lower-cased address, overwriting any
prior address — and the custodial-key field is overwritten with null,
because the upsert writes the key column from `link`'s defaulted null
parameter.  When the check fails, the upsert raises the check violation
and the database is unchanged (so the key survives only in that error
case). -/
theorem c5_amended_link_clears_key :
    (∀ (db : DBState) (id addr : String) (now : Nat),
        validWallet (lowerString addr) = true →
        (WalletResolver.link db id addr now).1 = Except.ok () ∧
        getUserByTwitterId (WalletResolver.link db id addr now).2 id =
          some { twitter_id := id, wallet_address := lowerString addr,
                 private_key_encrypted := none, verified_at := now }) ∧
    (∀ (db : DBState) (id addr : String) (now : Nat),
        validWallet (lowerString addr) = false →
        (WalletResolver.link db id addr now).1 = Except.error DBError.checkViolation ∧
        (WalletResolver.link db id addr now).2 = db) := by
  constructor
  · intro db id addr now hv
    simp [WalletResolver.link, upsertUser, hv, getUserByTwitterId,
      alistFind_alistSet_same, Except.map]
  · intro db id addr now hv
    simp [WalletResolver.link, upsertUser, hv, Except.map]

/-- Witness for the amended C5 at a schema-valid address over the
database whose user holds a custodial key. -/
theorem c5_witness :
    (WalletResolver.link c5db "u1" "0xAaBbCcDd00112233445566778899aAbBcCdDeEfF" 7).1 =
      Except.ok () ∧
    getUserByTwitterId
      (WalletResolver.link c5db "u1" "0xAaBbCcDd00112233445566778899aAbBcCdDeEfF" 7).2
      "u1" =
      some { twitter_id := "u1",
             wallet_address := lowerString "0xAaBbCcDd00112233445566778899aAbBcCdDeEfF",
             private_key_encrypted := none, verified_at := 7 } :=
  c5_amended_link_clears_key.1 c5db "u1" "0xAaBbCcDd00112233445566778899aAbBcCdDeEfF" 7
    (by decide)

/-- C6: a job whose requester is blocked by the rate limiter returns the
distinguished `rate_limited` outcome, is not persisted as `failed`, and
leaves the whole database unchanged — no Deployment row is created or
mutated (the only side effect is the reply). -/
theorem c6_rate_limited_no_mutation (data : DeploymentJob) (env : ChainEnv) (now : Nat)
    (db : DBState) (w : String)
    (hex : deploymentExists db data.mention.tweet_id = false)
    (hres : WalletResolver.resolve db data.parentTweet.author_id = some w)
    (hrl : checkRateLimit db data.mention.author_id RATE_LIMIT_COOLDOWN_MS now = false) :
    processDeploymentJob data env now db =
      (Except.ok JobOutcome.rate_limited, db, [Ev.replied data.mention.tweet_id]) :=
  run_eq_rate_limited data env now db w hex hres hrl

/-- Witness for C6: requester `a1` attempted at time 1000, retries at
time 2000 (within the 1-hour cooldown). -/
theorem c6_witness :
    processDeploymentJob jobT1 envOk 2000 c6db =
      (Except.ok JobOutcome.rate_limited, c6db, [Ev.replied jobT1.mention.tweet_id]) :=
  c6_rate_limited_no_mutation jobT1 envOk 2000 c6db "0x00aa"
    (by decide) (by decide) (by decide)

/-- C7: the worker draining the `deployments` queue is configured with
`concurrency: 1`, and under the queue's scheduling semantics with that
bound no reachable worker-pool state has two jobs executing their
processor concurrently. -/
theorem c7_worker_serialized :
    deploymentWorkerOptions.concurrency = 1 ∧
    ∀ n, WorkerReachable n → n ≤ 1 := by
  refine ⟨rfl, ?_⟩
  intro n h
  induction h with
  | idle => omega
  | step hr hs ih =>
    cases hs
    case start hk =>
      simp only [deploymentWorkerOptions] at hk
      omega
    case done => omega

/-- Witness for C7: the state with one running job is reachable and
satisfies the bound. -/
theorem c7_witness : (1 : Nat) ≤ 1 :=
  c7_worker_serialized.2 1
    (WorkerReachable.step WorkerReachable.idle (WorkerStep.start 0 (by decide)))

/-- C8: for every text that does not contain both the bot mention and the
literal token `deploy` case-insensitively, `parse` returns null. -/
theorem c8_parse_none_without_trigger (botUsername text : List Char)
    (h : ¬ (containsSub ('@' :: lowerStr botUsername) (lowerStr text) = true ∧
            containsSub ['d', 'e', 'p', 'l', 'o', 'y'] (lowerStr text) = true)) :
    CommandParser.parse (CommandParser.create botUsername) text = none := by
  have hcond : ¬ (containsSub ('@' :: (CommandParser.create botUsername).botUsername)
        (lowerStr (trimText text)) = true) ∨
      ¬ (containsSub ['d', 'e', 'p', 'l', 'o', 'y'] (lowerStr (trimText text)) = true) := by
    rcases not_and_or.mp h with ha | hb
    · exact Or.inl fun hA => ha (containsSub_of_normalized _ _ hA)
    · exact Or.inr fun hB => hb (containsSub_of_normalized _ _ hB)
  rw [CommandParser.parse, if_pos hcond]

/-- Witness for C8 on a text with neither trigger token. -/
theorem c8_witness :
    CommandParser.parse (CommandParser.create ['m', 'y', 'b', 'o', 't'])
      ['h', 'e', 'l', 'l', 'o'] = none :=
  c8_parse_none_without_trigger ['m', 'y', 'b', 'o', 't'] ['h', 'e', 'l', 'l', 'o']
    (by decide)

/-- C9: decrypt inverts encrypt: for any plaintext (as UTF-8 bytes), any
16-byte IV, and any cipher pair that round-trips under that IV and
produces non-empty ciphertext (AES-256-CBC with the fixed service key
does, PKCS#7 padding making the ciphertext at least one block),
`decrypt (encrypt s) = s`. -/
theorem c9_encrypt_decrypt_roundtrip (cipherE cipherD : List Byte → List Byte → List Byte)
    (iv text : List Byte)
    (hinv : cipherD iv (cipherE iv text) = text)
    (hiv : iv.length = 16)
    (hct : cipherE iv text ≠ []) :
    WalletService.decrypt cipherD (WalletService.encrypt cipherE iv text) = some text :=
  walletService_decrypt_encrypt cipherE cipherD iv text hinv hiv hct

/-- Witness for C9 with the identity cipher on the bytes of "hi". -/
theorem c9_witness :
    WalletService.decrypt (fun _ m => m)
      (WalletService.encrypt (fun _ m => m) (List.replicate 16 (0 : Byte))
        [104, 105]) = some [104, 105] :=
  c9_encrypt_decrypt_roundtrip (fun _ m => m) (fun _ m => m)
    (List.replicate 16 (0 : Byte)) [104, 105] rfl (by decide) (by decide)

/-- C10: a run records a rate-limit attempt only on the path where the
fee-recipient wallet resolved and the rate-limit check passed, after the
row is created and set to `processing` and before the deployer is
invoked; runs ending in `skipped`, `wallet_missing` or `rate_limited`
leave the rate-limit table unchanged and record no attempt. -/
theorem c10_attempt_only_on_deploy_path (d : Delivery) (db : DBState) :
    (((processDeploymentJob d.job d.env d.now db).1 = Except.ok JobOutcome.skipped ∨
      (processDeploymentJob d.job d.env d.now db).1 = Except.ok JobOutcome.wallet_missing ∨
      (processDeploymentJob d.job d.env d.now db).1 = Except.ok JobOutcome.rate_limited) →
      (runState d db).rate_limits = db.rate_limits ∧
      ∀ u, Ev.attemptRecorded u ∉ runTrace d db) ∧
    (∀ u, Ev.attemptRecorded u ∈ runTrace d db →
      u = d.job.mention.author_id ∧
      deploymentExists db d.job.mention.tweet_id = false ∧
      (∃ w, WalletResolver.resolve db d.job.parentTweet.author_id = some w) ∧
      checkRateLimit db d.job.mention.author_id RATE_LIMIT_COOLDOWN_MS d.now = true ∧
      ∃ rest, runTrace d db =
        Ev.createdRow d.job.mention.tweet_id ::
        Ev.statusSet d.job.mention.tweet_id DeploymentStatus.processing ::
        Ev.attemptRecorded d.job.mention.author_id ::
        Ev.deployInvoked d.job.mention.tweet_id :: rest) := by
  rcases run_cases d.job d.env d.now db with hex | ⟨hex, hres⟩ |
    ⟨hex, w, hres, hrl⟩ | ⟨hex, w, hres, hrl, e, hd⟩ |
    ⟨hex, w, hres, hrl, hl, hp, ⟨hh, hs⟩, hw⟩
  · constructor
    · intro _
      simp [runState, runTrace, run_eq_skipped d.job d.env d.now db hex]
    · intro u hu
      simp [runTrace, run_eq_skipped d.job d.env d.now db hex] at hu
  · constructor
    · intro _
      simp [runState, runTrace, run_eq_wallet_missing d.job d.env d.now db hex hres]
    · intro u hu
      simp [runTrace, run_eq_wallet_missing d.job d.env d.now db hex hres] at hu
  · constructor
    · intro _
      simp [runState, runTrace, run_eq_rate_limited d.job d.env d.now db w hex hres hrl]
    · intro u hu
      simp [runTrace, run_eq_rate_limited d.job d.env d.now db w hex hres hrl] at hu
  · constructor
    · intro hcon
      rw [run_eq_failed d.job d.env d.now db w e hex hres hrl hd] at hcon
      simp at hcon
    · intro u hu
      rw [runTrace, run_eq_failed d.job d.env d.now db w e hex hres hrl hd] at hu
      simp at hu
      refine ⟨hu, hex, ⟨w, hres⟩, hrl, ?_⟩
      rw [runTrace, run_eq_failed d.job d.env d.now db w e hex hres hrl hd]
      exact ⟨[Ev.statusSet d.job.mention.tweet_id DeploymentStatus.failed,
              Ev.replied d.job.mention.tweet_id], rfl⟩
  · constructor
    · intro hcon
      rw [run_eq_success d.job d.env d.now db w hh hex hres hrl hl hp hs hw] at hcon
      simp at hcon
    · intro u hu
      rw [runTrace, run_eq_success d.job d.env d.now db w hh hex hres hrl hl hp hs hw] at hu
      simp at hu
      refine ⟨hu, hex, ⟨w, hres⟩, hrl, ?_⟩
      rw [runTrace, run_eq_success d.job d.env d.now db w hh hex hres hrl hl hp hs hw]
      exact ⟨[Ev.statusSet d.job.mention.tweet_id DeploymentStatus.deployed,
              Ev.replied d.job.mention.tweet_id], rfl⟩

/-- Witness for C10: on the successful run from the linked database, the
attempt record sits after creation and the processing update and before
the deployer invocation. -/
theorem c10_witness :
    "a1" = (Delivery.mk jobT1 envOk 0).job.mention.author_id ∧
    deploymentExists dbLinked (Delivery.mk jobT1 envOk 0).job.mention.tweet_id = false ∧
    (∃ w, WalletResolver.resolve dbLinked
        (Delivery.mk jobT1 envOk 0).job.parentTweet.author_id = some w) ∧
    checkRateLimit dbLinked (Delivery.mk jobT1 envOk 0).job.mention.author_id
      RATE_LIMIT_COOLDOWN_MS (Delivery.mk jobT1 envOk 0).now = true ∧
    ∃ rest, runTrace (Delivery.mk jobT1 envOk 0) dbLinked =
      Ev.createdRow (Delivery.mk jobT1 envOk 0).job.mention.tweet_id ::
      Ev.statusSet (Delivery.mk jobT1 envOk 0).job.mention.tweet_id
        DeploymentStatus.processing ::
      Ev.attemptRecorded (Delivery.mk jobT1 envOk 0).job.mention.author_id ::
      Ev.deployInvoked (Delivery.mk jobT1 envOk 0).job.mention.tweet_id :: rest :=
  (c10_attempt_only_on_deploy_path (Delivery.mk jobT1 envOk 0) dbLinked).2 "a1" (by decide)

end TokenDeployer
